import Mathlib

/-!
Shallow embedding of the neuraplay-cloudrun voice-coaching backend.

The embedding covers:
* `gemini_service.py` — the retry wrapper `_call_gemini_with_retry`, the
  heuristic parser `_parse_insights_to_structured`, `_score_to_rating`,
  `_create_error_response`, and the two voice analyzers
  `analyze_fifa_voice_input` / `analyze_lol_voice_input`;
* `views.py` — `build_response_data`;
* `consumers.py` — the WebSocket session state and the `receive` /
  `_handle_auth` / `_handle_audio_chunk` / `_handle_speech_end` dispatch;
* `firestore_service.py` — the per-user retention logic of
  `save_fifa_analysis` / `_enforce_document_limit`.

Modelling conventions:
* Python `str` becomes `String` / `List Char`; `.lower()` is ASCII lowering.
* Python floats become exact rationals (`ℚ`).  Every numeric value the
  analyzed code produces is an exact small decimal (multiples of 1/100),
  so exact rational arithmetic agrees with the float computation.
  `round(x, n)` becomes `pyRound`, decimal rounding half-to-even.
* External effects (the generation backend, Firestore, speech APIs) are
  modelled by outcome parameters (`Except`, `Bool`); code that catches all
  exceptions and returns normally becomes a total Lean function.
-/

deriving instance DecidableEq for Except

namespace Neuraplay

/-! ### Character/string primitives mirroring the Python string methods -/

/-- Whitespace characters recognised by Python `str.strip` (ASCII range). -/
def isPySpace (c : Char) : Bool :=
  c = ' ' || c = '\t' || c = '\n' || c = '\r' || c = '\x0b' || c = '\x0c'

/-- Python `str.strip()` on a character list. -/
def pyStrip (l : List Char) : List Char :=
  ((l.dropWhile isPySpace).reverse.dropWhile isPySpace).reverse

/-- Python `str.lower()` (ASCII lowering). -/
def lowerL (l : List Char) : List Char := l.map Char.toLower

/-- Does `p` start `l`?  (Python `str.startswith`.) -/
def hasPre : List Char → List Char → Bool
  | [], _ => true
  | _ :: _, [] => false
  | a :: as, b :: bs => a = b && hasPre as bs

/-- Does `needle` occur as a contiguous substring of `hay`?  (Python `in`.) -/
def hasSub (needle : List Char) : List Char → Bool
  | [] => hasPre needle []
  | c :: rest => hasPre needle (c :: rest) || hasSub needle rest

/-- Python `str.splitlines`, segments delimited by `\n`, `\r` or `\r\n`
(the rarer Unicode line separators are not modelled; the parser filters
empty lines afterwards, so only non-degenerate segments matter). -/
def splitLinesAux : List Char → List Char → List (List Char)
  | cur, [] => [cur.reverse]
  | cur, '\r' :: '\n' :: rest2 =>
    cur.reverse :: (if rest2.isEmpty then [] else splitLinesAux [] rest2)
  | cur, c :: rest =>
    if c = '\n' || c = '\r' then
      cur.reverse :: (if rest.isEmpty then [] else splitLinesAux [] rest)
    else
      splitLinesAux (c :: cur) rest

/-- Python `text.splitlines()`. -/
def pySplitlines (s : List Char) : List (List Char) :=
  if s.isEmpty then [] else splitLinesAux [] s

/-- Sentence-ending punctuation of the regex `(?<=[.!?])\s+`. -/
def isSentEnd (c : Char) : Bool := c = '.' || c = '!' || c = '?'

/-- Engine for Python `re.split(r"(?<=[.!?])\s+", ·)`: a maximal whitespace
run immediately preceded by `.`, `!` or `?` separates two pieces.  The
first argument is `true` while a whitespace run is being consumed, the
second accumulates the current piece in reverse. -/
def sentAux : Bool → List Char → List Char → List (List Char)
  | true, _, [] => [[]]
  | false, cur, [] => [cur.reverse]
  | true, cur, c :: rest =>
    if isPySpace c then sentAux true cur rest else sentAux false [c] rest
  | false, cur, c :: rest =>
    if isSentEnd c then
      match rest with
      | [] => [(c :: cur).reverse]
      | d :: _ =>
        if isPySpace d then (c :: cur).reverse :: sentAux true [] rest
        else sentAux false (c :: cur) rest
    else sentAux false (c :: cur) rest

/-- Python `re.split(r"(?<=[.!?])\s+", s)`. -/
def sentSplit (s : List Char) : List (List Char) := sentAux false [] s

/-- Python `" ".join(parts)`. -/
def spaceJoin (parts : List (List Char)) : List Char :=
  List.intercalate [' '] parts

/-! ### Exact-decimal model of Python `round` -/

/-- Round a rational to the nearest integer, ties to even
(the rounding used by Python `round`). -/
def roundHalfEven (q : ℚ) : ℤ :=
  if q - ⌊q⌋ < 1 / 2 then ⌊q⌋
  else if 1 / 2 < q - ⌊q⌋ then ⌊q⌋ + 1
  else if ⌊q⌋ % 2 = 0 then ⌊q⌋ else ⌊q⌋ + 1

/-- Python `round(q, n)` on exact decimals. -/
def pyRound (q : ℚ) (n : ℕ) : ℚ :=
  (roundHalfEven (q * 10 ^ n) : ℚ) / 10 ^ n

/-! ### gemini_service.py: score→rating and the heuristic parser -/

/-- Embedded `_score_to_rating` (gemini_service.py lines 80-83). -/
def scoreToRating (score : ℚ) : ℚ :=
  pyRound (1 + max 0 (min 1 score) * 9) 1

/-- Metadata record attached by the analyzers (`meta` dict). -/
structure Meta where
  game : String
  inputType : String
  userText : Option String
  responseType : Option String
  deriving DecidableEq, Repr

/-- Structured analysis dictionary produced by the gemini service. -/
structure AnalysisResult where
  top_tips : List String
  drills : List String
  explanation : String
  estimated_score : Option ℚ
  rating : Option ℚ
  raw_text : String
  error : Option String := none
  meta : Option Meta := none
  deriving DecidableEq, Repr

/-- The tuple of markers in `lowered.startswith(("tip","-","•","1.","2.","3."))`. -/
def tipMarkers : List (List Char) :=
  ["tip".data, "-".data, "•".data, "1.".data, "2.".data, "3.".data]

/-- Character set of `line.lstrip("-•0123456789. ")`. -/
def bulletChars : List Char := "-•0123456789. ".data

/-- The `line.lstrip("-•0123456789. ").strip()` cleanup of tip/drill lines. -/
def stripBullets (line : List Char) : List Char :=
  pyStrip (line.dropWhile (fun c => bulletChars.contains c))

/-- Value of a digit character. -/
def digitVal (c : Char) : ℕ := c.toNat - '0'.toNat

/-- Numeric value of a digit string. -/
def digitsToNat (ds : List Char) : ℕ :=
  ds.foldl (fun n c => n * 10 + digitVal c) 0

/-- Group 1 of `re.search(r"(\d{1,3})(?:\.\d+)?\s*%?", line)`: the first
up-to-three characters of the first digit run, if the line has a digit. -/
def extractDigits (line : List Char) : Option ℕ :=
  let ds := ((line.dropWhile (fun c => !c.isDigit)).takeWhile Char.isDigit).take 3
  if ds.isEmpty then none else some (digitsToNat ds)

/-- Accumulator of the line loop in `_parse_insights_to_structured`. -/
structure ParseAcc where
  tips : List (List Char)
  drills : List (List Char)
  expl : List (List Char)
  est : Option ℚ

/-- One iteration of the `for line in lines` loop of
`_parse_insights_to_structured` (gemini_service.py lines 100-119);
`lowerL line` is the loop's `lowered`. -/
def lineStep (acc : ParseAcc) (line : List Char) : ParseAcc :=
  if tipMarkers.any (fun p => hasPre p (lowerL line)) then
    if hasSub "drill".data (lowerL line) || hasSub "practice".data (lowerL line) ||
        hasSub "train".data (lowerL line) then
      { acc with drills := acc.drills ++ [stripBullets line] }
    else
      { acc with tips := acc.tips ++ [stripBullets line] }
  else if hasSub "score".data (lowerL line) || hasSub "%".data (lowerL line) then
    match extractDigits line with
    | some val =>
      { acc with est := some (max 0 (min 100 (val : ℚ)) / 100),
                 expl := acc.expl ++ [line] }
    | none => { acc with expl := acc.expl ++ [line] }
  else
    { acc with expl := acc.expl ++ [line] }

/-- Score contribution of a single line, read off the branch structure of
the loop: lines not marked as tips/drills that contain "score" or "%" and
from which a digit run can be extracted contribute the clamped value
divided by 100; every other line contributes nothing. -/
def lineScore (line : List Char) : Option ℚ :=
  if tipMarkers.any (fun p => hasPre p (lowerL line)) then none
  else if hasSub "score".data (lowerL line) || hasSub "%".data (lowerL line) then
    (extractDigits line).map (fun val : ℕ => max 0 (min 100 (val : ℚ)) / 100)
  else none

/-- Positive-sentiment keywords of the synthetic score. -/
def posKeywords : List String :=
  ["excellent", "well", "good", "great", "improving", "better"]

/-- Negative-sentiment keywords of the synthetic score. -/
def negKeywords : List String :=
  ["mistake", "poor", "bad", "missed", "struggling", "weakness"]

/-- Synthetic score used when no score line was found
(gemini_service.py lines 129-137). -/
def syntheticScore (text : String) : ℚ :=
  let s := lowerL text.data
  let score : ℚ := 1 / 2
  let score := if posKeywords.any (fun k => hasSub k.data s) then score + 1 / 5 else score
  let score := if negKeywords.any (fun k => hasSub k.data s) then score - 1 / 5 else score
  max 0 (min 1 score)

/-- Nonempty stripped lines of the input, as computed by
`[l.strip() for l in text.splitlines() if l.strip()]`. -/
def linesOf (text : String) : List (List Char) :=
  ((pySplitlines text.data).map pyStrip).filter (fun l => !l.isEmpty)

/-- Embedded `_parse_insights_to_structured` (gemini_service.py lines 85-148). -/
def parseInsightsToStructured (text : String) : AnalysisResult :=
  let acc := (linesOf text).foldl lineStep ⟨[], [], [], none⟩
  let tips :=
    if acc.tips.isEmpty then
      (((sentSplit text.data).take 3).map pyStrip).filter (fun s => !s.isEmpty)
    else acc.tips
  let estScore :=
    match acc.est with
    | some v => v
    | none => syntheticScore text
  { top_tips := tips.map (fun l => (⟨l⟩ : String))
    drills := acc.drills.map (fun l => (⟨l⟩ : String))
    explanation := ⟨pyStrip (spaceJoin acc.expl)⟩
    estimated_score := some (pyRound estScore 3)
    rating := some (scoreToRating estScore)
    raw_text := text }

/-- The score the parser feeds into rounding and the rating formula:
the loop's final `est_score` when a score line was found, otherwise the
synthetic fallback. -/
def parserScore (text : String) : ℚ :=
  match ((linesOf text).foldl lineStep ⟨[], [], [], none⟩).est with
  | some v => v
  | none => syntheticScore text

/-! ### gemini_service.py: error response and voice analyzers -/

/-- Embedded `_create_error_response` (gemini_service.py lines 150-173).
The non-voice meta dict `{"game": game, "input_type": input_type}` is
modelled with absent `userText`/`responseType`. -/
def createErrorResponse (game errorMsg : String) (inputType : String := "structured")
    (userText : String := "") : AnalysisResult :=
  { top_tips := []
    drills := []
    explanation := "I'm having trouble connecting to the analysis service right now. Please try again in a moment."
    estimated_score := some (1 / 2)
    rating := some 5
    raw_text := ""
    error := some errorMsg
    meta := some (if inputType = "voice" then
        ⟨game, "voice", some userText, some "error"⟩
      else
        ⟨game, inputType, none, none⟩) }

/-- Detail-request keywords of the voice analyzers (gemini_service.py
lines 299-301 and 382-384). -/
def detailKeywords : List String :=
  ["detailed", "comprehensive", "full analysis", "complete"]

/-- The `wants_detailed` test: any detail keyword occurs in
`user_text.lower()`. -/
def wantsDetailed (userText : String) : Bool :=
  detailKeywords.any (fun k => hasSub k.data (lowerL userText.data))

/-- The simple (non-detailed) branch result of the voice analyzers: first
three sentences of the stripped reply, tips/drills empty, score and
rating null (gemini_service.py lines 354-372 and 436-453). -/
def simpleVoiceResult (game userText text : String) : AnalysisResult :=
  { top_tips := []
    drills := []
    explanation := ⟨spaceJoin ((sentSplit (pyStrip text.data)).take 3)⟩
    estimated_score := none
    rating := none
    raw_text := text
    error := none
    meta := some ⟨game, "voice", some userText, some "simple"⟩ }

/-- Embedded `analyze_fifa_voice_input` (gemini_service.py lines 294-375).
The call to `_call_gemini_with_retry` on the constructed prompt is an
external effect and enters as the `gemini` outcome parameter (prompt text
elided — nothing downstream depends on it); the `except` branch of the
Python function is the `.error` case. -/
def analyzeFifaVoiceInput (userText : String) (gemini : Except String String) :
    AnalysisResult :=
  match gemini with
  | .ok text =>
    if wantsDetailed userText then
      { parseInsightsToStructured text with
        meta := some ⟨"fifa", "voice", some userText, some "detailed"⟩ }
    else
      simpleVoiceResult "fifa" userText text
  | .error e =>
    createErrorResponse "fifa" ("Voice analysis failed: " ++ e) "voice" userText

/-- Embedded `analyze_lol_voice_input` (gemini_service.py lines 377-456),
identical in structure to the FIFA analyzer. -/
def analyzeLolVoiceInput (userText : String) (gemini : Except String String) :
    AnalysisResult :=
  match gemini with
  | .ok text =>
    if wantsDetailed userText then
      { parseInsightsToStructured text with
        meta := some ⟨"league_of_legends", "voice", some userText, some "detailed"⟩ }
    else
      simpleVoiceResult "league_of_legends" userText text
  | .error e =>
    createErrorResponse "league_of_legends" ("Voice analysis failed: " ++ e) "voice" userText

/-! ### gemini_service.py: the retry wrapper `_call_gemini_with_retry` -/

/-- Default `GEMINI_MAX_RETRIES` (gemini_service.py line 14). -/
def MAX_RETRIES : ℕ := 3

/-- Default `GEMINI_RETRY_DELAY` in seconds (gemini_service.py line 15). -/
def RETRY_DELAY : ℚ := 2

/-- Transient-error keywords (gemini_service.py lines 64-66). -/
def retryKeywords : List String :=
  ["overloaded", "503", "unavailable", "timeout", "busy", "quota"]

/-- The `is_retryable` classification: keyword substring match on the
lowercased exception text. -/
def isRetryable (e : String) : Bool :=
  retryKeywords.any (fun k => hasSub k.data (lowerL e.data))

/-- The `RuntimeError` message raised when the loop ends without success. -/
def geminiFailMsg (maxRetries : ℕ) (lastExc : Option String) : String :=
  "Gemini call failed after " ++ toString maxRetries ++ " attempts: " ++
    lastExc.getD "None"

/-- Observable run of the retry loop: final outcome, number of backend
attempts made, and the sequence of backoff delays slept. -/
structure RetryRun where
  result : Except String String
  attempts : ℕ
  delays : List ℚ
  deriving DecidableEq, Repr

/-- Record a backoff sleep of `d` seconds in front of the run `r`
(the `time.sleep(wait_time)` before `continue`). -/
def consDelay (d : ℚ) (r : RetryRun) : RetryRun :=
  ⟨r.result, r.attempts, d :: r.delays⟩

/-- One execution of the `for attempt in range(max_retries)` loop of
`_call_gemini_with_retry` (gemini_service.py lines 31-78), starting at
`attempt` with `fuel = max_retries - attempt` iterations left.  `outcomes
i` is the backend's behaviour on the i-th call: `.ok text` for a normal
reply (the wrapper strips it), `.error e` for a raised exception. -/
def retryGo (outcomes : ℕ → Except String String) (maxRetries : ℕ) :
    ℕ → ℕ → Option String → RetryRun
  | attempt, 0, lastExc => ⟨.error (geminiFailMsg maxRetries lastExc), attempt, []⟩
  | attempt, fuel + 1, _ =>
    match outcomes attempt with
    | .ok text => ⟨.ok (⟨pyStrip text.data⟩ : String), attempt + 1, []⟩
    | .error e =>
      if isRetryable e && decide (attempt < maxRetries - 1) then
        consDelay (RETRY_DELAY * 2 ^ attempt)
          (retryGo outcomes maxRetries (attempt + 1) fuel (some e))
      else
        ⟨.error (geminiFailMsg maxRetries (some e)), attempt + 1, []⟩

/-- Embedded `_call_gemini_with_retry`: run the loop from attempt 0. -/
def callGeminiWithRetry (outcomes : ℕ → Except String String)
    (maxRetries : ℕ := MAX_RETRIES) : RetryRun :=
  retryGo outcomes maxRetries 0 maxRetries none

/-! ### views.py: `build_response_data` -/

/-- The flattened view sent to the frontend (views.py lines 46-67). -/
structure ResponseData where
  summary : String
  topTips : List String
  trainingDrills : List String
  rating : Option ℚ
  confidence : Option ℚ
  responseType : String
  deriving DecidableEq, Repr

/-- Embedded `build_response_data` (views.py lines 46-67). -/
def buildResponseData (result : AnalysisResult) : ResponseData :=
  if result.rating = none ∧ result.estimated_score = none then
    { summary := result.explanation
      topTips := []
      trainingDrills := []
      rating := none
      confidence := none
      responseType := "simple" }
  else
    { summary := result.explanation
      topTips := result.top_tips
      trainingDrills := result.drills
      rating := result.rating
      confidence := result.estimated_score
      responseType := "detailed" }

/-! ### consumers.py: the WebSocket session orchestrator -/

/-- Mutable per-connection state of `VoiceAnalysisConsumer`
(consumers.py lines 19-21); audio bytes are modelled as their numeric
values (base64 transport decoding elided). -/
structure Session where
  userId : Option String
  bufferedAudio : List ℕ
  game : String
  deriving DecidableEq, Repr

/-- Incoming client messages, after JSON decoding; `audioChunk` carries
the already base64-decoded bytes, `speechEnd` the optional `game` field.
`other` is any unrecognized `type`. -/
inductive ClientMsg where
  | auth (token : String)
  | audioChunk (chunk : List ℕ)
  | speechEnd (game : Option String)
  | other (t : String)
  deriving DecidableEq, Repr

/-- Outgoing JSON messages of the consumer. -/
inductive ServerMsg where
  | status (s : String)
  | error (e : String)
  | transcript (t : String)
  | analysisWithAudio (a : ResponseData) (ttsAudio : List ℕ)
  | analysisWithError (a : ResponseData) (e : String)
  deriving DecidableEq, Repr

/-- External calls the consumer issues, recorded as a trace so that
routing claims (which analyzer, which save path) are observable. -/
inductive Effect where
  | transcribe (audio : List ℕ)
  | analyzeFifa (transcript : String)
  | analyzeLol (transcript : String)
  | saveFifa (userId transcript : String)
  | saveLol (userId transcript : String)
  | synthesize (text : String)
  deriving DecidableEq, Repr

/-- Behaviour of the external world during one message:
token verification, speech-to-text (total: `_transcribe_audio` catches
every exception and returns a string), the net outcome of the gemini
retry wrapper, whether the Firestore save raises, and the TTS outcome. -/
structure Env where
  verifyToken : String → Option String
  transcribe : List ℕ → String
  gemini : Except String String
  saveOk : Bool
  tts : Except String (List ℕ)

/-- Result of handling one message: new session state, messages sent,
external-call trace, and whether the connection was closed. -/
structure HandlerOut where
  session : Session
  sent : List ServerMsg
  effects : List Effect
  closed : Bool
  deriving Repr

/-- The `try: gemini_result = analyze_*_voice_input(transcript)` block of
`_handle_speech_end` (consumers.py lines 98-105).  Both analyzers are
total Lean functions — mirroring that the Python functions catch every
exception internally and return an error-shaped dict instead of raising —
so the block always produces `.ok`; the orchestrator's `except` branch is
nevertheless kept in `handleSpeechEnd` below, as in the source. -/
def runAnalysis (gemini : Except String String) (game transcript : String) :
    Except String AnalysisResult :=
  .ok (if game = "lol" then analyzeLolVoiceInput transcript gemini
       else analyzeFifaVoiceInput transcript gemini)

/-- Trace entry for the analyzer dispatch of `_handle_speech_end`. -/
def analysisEffect (game transcript : String) : Effect :=
  if game = "lol" then .analyzeLol transcript else .analyzeFifa transcript

/-- Trace entry for the Firestore dispatch of `_handle_speech_end`. -/
def saveEffect (game userId transcript : String) : Effect :=
  if game = "lol" then .saveLol userId transcript else .saveFifa userId transcript

/-- Embedded `_handle_speech_end` (consumers.py lines 84-140): auth guard,
game selection, transcription, analysis (with early return on analysis
failure — reachable only if the analyzer could raise), best-effort save,
TTS with analysis-preserving fallback, and the final buffer reset. -/
def handleSpeechEnd (env : Env) (s : Session) (gameField : Option String) :
    HandlerOut :=
  match s.userId with
  | none => ⟨s, [.error "Not authenticated"], [], false⟩
  | some uid =>
    let game := gameField.getD "fifa"
    let s1 : Session := { s with game := game }
    let transcript := env.transcribe s.bufferedAudio
    let msgs0 : List ServerMsg := [.transcript transcript]
    let effs0 : List Effect := [.transcribe s.bufferedAudio, analysisEffect game transcript]
    match runAnalysis env.gemini game transcript with
    | .error e =>
      -- early return: `await self.send_json({"error": ...}); return`
      -- (buffer NOT cleared on this path)
      ⟨s1, msgs0 ++ [.error ("Analysis failed: " ++ e)], effs0, false⟩
    | .ok geminiResult =>
      let responseData := buildResponseData geminiResult
      -- Firestore save is attempted inside try/except; failure is only logged
      let effs1 := effs0 ++ [saveEffect game uid transcript]
      let ttsMsg : List ServerMsg :=
        match env.tts with
        | .ok audio => [.analysisWithAudio responseData audio]
        | .error e => [.analysisWithError responseData ("TTS failed: " ++ e)]
      ⟨{ s1 with bufferedAudio := [] },
        msgs0 ++ ttsMsg,
        effs1 ++ [.synthesize responseData.summary],
        false⟩

/-- Embedded `_handle_auth` (consumers.py lines 66-77). -/
def handleAuth (env : Env) (s : Session) (token : String) : HandlerOut :=
  match env.verifyToken token with
  | none => ⟨s, [.error "Unauthorized"], [], true⟩
  | some uid => ⟨{ s with userId := some uid }, [.status "authenticated"], [], false⟩

/-- Embedded `_handle_audio_chunk` (consumers.py lines 79-82): append the
decoded bytes to the buffer, no auth check, no response. -/
def handleAudioChunk (s : Session) (chunk : List ℕ) : HandlerOut :=
  ⟨{ s with bufferedAudio := s.bufferedAudio ++ chunk }, [], [], false⟩

/-- Embedded `receive` dispatch (consumers.py lines 55-64); unrecognized
message types fall through with no effect. -/
def receive (env : Env) (s : Session) (m : ClientMsg) : HandlerOut :=
  match m with
  | .auth token => handleAuth env s token
  | .audioChunk chunk => handleAudioChunk s chunk
  | .speechEnd g => handleSpeechEnd env s g
  | .other _ => ⟨s, [], [], false⟩

/-- Fresh session created on `connect` (consumers.py lines 19-21). -/
def initialSession : Session := ⟨none, [], "fifa"⟩

/-! ### firestore_service.py: retention cap -/

/-- Default per-user document limit (firestore_service.py line 132). -/
def DOC_LIMIT : ℕ := 10

/-- Embedded `_enforce_document_limit` (firestore_service.py lines
132-161) for one user's collection: `store` is that user's documents in
creation order (oldest first, matching `order_by('created_at')`).  The
query is capped at `limit + 5` documents; if more than `limit` come back,
the oldest `len - limit` of them are batch-deleted. -/
def enforceDocumentLimit (store : List ℕ) (limit : ℕ := DOC_LIMIT) : List ℕ :=
  if (store.take (limit + 5)).length > limit then
    store.drop ((store.take (limit + 5)).length - limit)
  else
    store

/-- Embedded retention behaviour of `save_fifa_analysis` /
`save_lol_analysis` (firestore_service.py lines 20-80) restricted to one
user and game: write one new document, then run the limit enforcement
with the default limit. -/
def saveAnalysis (store : List ℕ) (docId : ℕ) : List ℕ :=
  enforceDocumentLimit (store ++ [docId])

/-! ### Concrete environments and backend traces used by closed witnesses -/

/-- A trivial external world: every token invalid, empty transcripts,
an immediately successful backend, successful save, empty TTS audio. -/
def envNull : Env :=
  ⟨fun _ => none, fun _ => "", .ok "", true, .ok []⟩

/-- A backend trace: a transient 503 on the first call, then a
non-transient failure, then successes. -/
def outcomesEx : ℕ → Except String String
  | 0 => .error "503 service unavailable"
  | 1 => .error "boom"
  | _ => .ok "ok"

/-! ## Helper lemmas about rounding -/

lemma roundHalfEven_intCast (m : ℤ) : roundHalfEven (m : ℚ) = m := by
  unfold roundHalfEven
  rw [Int.floor_intCast, sub_self]
  norm_num

lemma le_roundHalfEven {q : ℚ} {a : ℤ} (h : (a : ℚ) ≤ q) : a ≤ roundHalfEven q := by
  have hf : a ≤ ⌊q⌋ := Int.le_floor.mpr h
  unfold roundHalfEven
  split_ifs <;> omega

lemma roundHalfEven_le {q : ℚ} {b : ℤ} (h : q ≤ (b : ℚ)) : roundHalfEven q ≤ b := by
  have hfb : ⌊q⌋ ≤ b := by
    have := Int.floor_le_floor h
    simpa using this
  have hfq : (⌊q⌋ : ℚ) ≤ q := Int.floor_le q
  unfold roundHalfEven
  split_ifs with h1 h2 h3
  · exact hfb
  · have h4 : (⌊q⌋ : ℚ) < q := by linarith
    have h5 : (⌊q⌋ : ℚ) < (b : ℚ) := lt_of_lt_of_le h4 h
    have h6 : ⌊q⌋ < b := by exact_mod_cast h5
    omega
  · exact hfb
  · have h1' : (1 : ℚ) / 2 ≤ q - ⌊q⌋ := not_lt.mp h1
    have h4 : (⌊q⌋ : ℚ) < q := by linarith
    have h5 : (⌊q⌋ : ℚ) < (b : ℚ) := lt_of_lt_of_le h4 h
    have h6 : ⌊q⌋ < b := by exact_mod_cast h5
    omega

lemma pyRound_exact {q : ℚ} {n : ℕ} (m : ℤ) (h : q * 10 ^ n = (m : ℚ)) :
    pyRound q n = q := by
  unfold pyRound
  rw [h, roundHalfEven_intCast, ← h]
  have h10 : ((10 : ℚ) ^ n) ≠ 0 := by positivity
  field_simp

lemma pyRound_le_of_le {q : ℚ} {n : ℕ} {b : ℤ} (h : q ≤ (b : ℚ)) :
    pyRound q n ≤ (b : ℚ) := by
  unfold pyRound
  have h10 : (0 : ℚ) < 10 ^ n := by positivity
  rw [div_le_iff₀ h10]
  have hb : q * 10 ^ n ≤ ((b * 10 ^ n : ℤ) : ℚ) := by
    push_cast
    exact mul_le_mul_of_nonneg_right h (le_of_lt h10)
  have := roundHalfEven_le hb
  calc (roundHalfEven (q * 10 ^ n) : ℚ) ≤ ((b * 10 ^ n : ℤ) : ℚ) := by exact_mod_cast this
    _ = (b : ℚ) * 10 ^ n := by push_cast; ring

lemma le_pyRound_of_le {q : ℚ} {n : ℕ} {a : ℤ} (h : (a : ℚ) ≤ q) :
    (a : ℚ) ≤ pyRound q n := by
  unfold pyRound
  have h10 : (0 : ℚ) < 10 ^ n := by positivity
  rw [le_div_iff₀ h10]
  have ha : ((a * 10 ^ n : ℤ) : ℚ) ≤ q * 10 ^ n := by
    push_cast
    exact mul_le_mul_of_nonneg_right h (le_of_lt h10)
  have := le_roundHalfEven ha
  calc (a : ℚ) * 10 ^ n = ((a * 10 ^ n : ℤ) : ℚ) := by push_cast; ring
    _ ≤ (roundHalfEven (q * 10 ^ n) : ℚ) := by exact_mod_cast this

/-! ## Helper lemmas about the heuristic parser's score -/

lemma lineStep_est (acc : ParseAcc) (line : List Char) :
    (lineStep acc line).est =
      match lineScore line with
      | some v => some v
      | none => acc.est := by
  unfold lineStep lineScore
  split_ifs with h1 h2 h3
  · rfl
  · rfl
  · rcases hx : extractDigits line with _ | val <;> simp [hx]
  · rfl

lemma foldl_lineStep_est (lines : List (List Char)) (acc : ParseAcc) :
    (lines.foldl lineStep acc).est =
      match (lines.filterMap lineScore).getLast? with
      | some v => some v
      | none => acc.est := by
  induction lines generalizing acc with
  | nil => rfl
  | cons line rest ih =>
    rw [List.foldl_cons, ih (lineStep acc line), List.filterMap_cons]
    rcases hs : lineScore line with _ | v
    · rw [show (lineStep acc line).est = acc.est by rw [lineStep_est, hs]]
    · have hest : (lineStep acc line).est = some v := by rw [lineStep_est, hs]
      rw [hest]
      rcases hfm : rest.filterMap lineScore with _ | ⟨w, L⟩
      · rfl
      · rw [List.getLast?_cons_cons]
        rcases hL : (w :: L).getLast? with _ | u
        · exact absurd (List.getLast?_eq_none_iff.mp hL) (by simp)
        · rfl

lemma lineScore_form {line : List Char} {v : ℚ} (h : lineScore line = some v) :
    ∃ k : ℕ, k ≤ 100 ∧ v = (k : ℚ) / 100 := by
  unfold lineScore at h
  split_ifs at h with h1 h2
  rcases hx : extractDigits line with _ | val
  · rw [hx] at h; simp at h
  · rw [hx] at h
    simp only [Option.map_some'] at h
    refine ⟨min val 100, min_le_right _ _, ?_⟩
    have hmin : min 100 ((val : ℕ) : ℚ) = ((min val 100 : ℕ) : ℚ) := by
      rw [Nat.cast_min, min_comm]
      norm_num
    have hnonneg : (0 : ℚ) ≤ min 100 ((val : ℕ) : ℚ) := by
      rw [hmin]; positivity
    rw [← Option.some_inj.mp h, max_eq_right hnonneg, hmin]

lemma syntheticScore_form (text : String) :
    ∃ k : ℕ, k ≤ 100 ∧ syntheticScore text = (k : ℚ) / 100 := by
  simp only [syntheticScore]
  split_ifs
  · exact ⟨50, by norm_num, by norm_num [min_def, max_def]⟩
  · exact ⟨30, by norm_num, by norm_num [min_def, max_def]⟩
  · exact ⟨70, by norm_num, by norm_num [min_def, max_def]⟩
  · exact ⟨50, by norm_num, by norm_num [min_def, max_def]⟩

lemma parserScore_form (text : String) :
    ∃ k : ℕ, k ≤ 100 ∧ parserScore text = (k : ℚ) / 100 := by
  unfold parserScore
  rw [foldl_lineStep_est]
  rcases h : ((linesOf text).filterMap lineScore).getLast? with _ | v
  · exact syntheticScore_form text
  · obtain ⟨ys, hys⟩ := List.getLast?_eq_some_iff.mp h
    have hv : v ∈ (linesOf text).filterMap lineScore := by
      rw [hys]; exact List.mem_append_right ys (List.mem_singleton_self v)
    obtain ⟨line, -, hline⟩ := List.mem_filterMap.mp hv
    exact lineScore_form hline

lemma parserScore_nonneg (text : String) : 0 ≤ parserScore text := by
  obtain ⟨k, -, hk⟩ := parserScore_form text
  rw [hk]; positivity

lemma parserScore_le_one (text : String) : parserScore text ≤ 1 := by
  obtain ⟨k, hk100, hk⟩ := parserScore_form text
  rw [hk, div_le_one (by norm_num : (0:ℚ) < 100)]
  exact_mod_cast hk100

lemma parserScore_clamp (text : String) :
    max 0 (min 1 (parserScore text)) = parserScore text := by
  rw [min_eq_right (parserScore_le_one text), max_eq_right (parserScore_nonneg text)]

lemma parserScore_round_exact (text : String) :
    pyRound (parserScore text) 3 = parserScore text := by
  obtain ⟨k, -, hk⟩ := parserScore_form text
  refine pyRound_exact (10 * k) ?_
  rw [hk]
  push_cast
  ring

lemma parse_estimated_score (text : String) :
    (parseInsightsToStructured text).estimated_score =
      some (pyRound (parserScore text) 3) := rfl

lemma parse_rating (text : String) :
    (parseInsightsToStructured text).rating =
      some (scoreToRating (parserScore text)) := rfl

/-! ## Helper lemmas about the retention cap -/

lemma saveAnalysis_le {store : List ℕ} (h : store.length ≤ 10) (d : ℕ) :
    (saveAnalysis store d).length ≤ 10 := by
  unfold saveAnalysis enforceDocumentLimit DOC_LIMIT
  split_ifs with hlen
  · simp only [List.length_drop, List.length_take, List.length_append,
      List.length_cons, List.length_nil] at hlen ⊢
    omega
  · simp only [List.length_take, List.length_append, List.length_cons,
      List.length_nil, not_lt] at hlen
    simp only [List.length_append, List.length_cons, List.length_nil]
    omega

lemma foldl_saveAnalysis_le (ds : List ℕ) :
    ∀ store : List ℕ, store.length ≤ 10 →
      (ds.foldl saveAnalysis store).length ≤ 10 := by
  induction ds with
  | nil => intro store h; simpa using h
  | cons d ds ih =>
    intro store h
    rw [List.foldl_cons]
    exact ih _ (saveAnalysis_le h d)

/-! ## Claim C10 -/

/-- Claim C10 (confirmed): for every input text, the detailed-branch
heuristic parser `_parse_insights_to_structured` returns an
`estimated_score` in [0,1] and a `rating` in [1.0, 10.0]: the
percent-extraction path divides a value clamped to [0,100] by 100, the
synthetic-score path clamps to [0,1], and `_score_to_rating` clamps its
argument before mapping to the 1-10 scale. -/
theorem C10_score_rating_bounds (text : String) :
    ∃ q r : ℚ,
      (parseInsightsToStructured text).estimated_score = some q ∧
      (parseInsightsToStructured text).rating = some r ∧
      0 ≤ q ∧ q ≤ 1 ∧ 1 ≤ r ∧ r ≤ 10 := by
  refine ⟨pyRound (parserScore text) 3, scoreToRating (parserScore text),
    parse_estimated_score text, parse_rating text, ?_, ?_, ?_, ?_⟩
  · rw [parserScore_round_exact]; exact parserScore_nonneg text
  · rw [parserScore_round_exact]; exact parserScore_le_one text
  · unfold scoreToRating
    rw [parserScore_clamp]
    have h1 : ((1 : ℤ) : ℚ) ≤ 1 + parserScore text * 9 := by
      have := parserScore_nonneg text
      push_cast
      nlinarith
    have h2 := le_pyRound_of_le (n := 1) h1
    simpa using h2
  · unfold scoreToRating
    rw [parserScore_clamp]
    have h1 : 1 + parserScore text * 9 ≤ ((10 : ℤ) : ℚ) := by
      have := parserScore_le_one text
      push_cast
      nlinarith
    have h2 := pyRound_le_of_le (n := 1) h1
    simpa using h2

/-! ## Claim C1 -/

/-- Claim C1 (corrected).  The claim as frozen fails: the degraded error
result of `_create_error_response` hardcodes `rating = 5.0` with
`estimated_score = 0.5`, while `round(1 + 0.5*9, 1) = 5.5`.  This closed
theorem exhibits the violation at the concrete program output
`analyze_fifa_voice_input("x")` with a failing backend call. -/
theorem C1_counterexample :
    (analyzeFifaVoiceInput "x" (.error "boom")).estimated_score = some (1 / 2) ∧
    (analyzeFifaVoiceInput "x" (.error "boom")).rating = some 5 ∧
    pyRound (1 + (1 / 2 : ℚ) * 9) 1 = 11 / 2 ∧
    (analyzeFifaVoiceInput "x" (.error "boom")).rating ≠ some (11 / 2 : ℚ) := by
  have hr : (analyzeFifaVoiceInput "x" (.error "boom")).rating = some 5 := rfl
  have hp : pyRound (1 + (1 / 2 : ℚ) * 9) 1 = 11 / 2 := by
    rw [show (1 + (1 / 2 : ℚ) * 9) = 11 / 2 by norm_num,
      pyRound_exact (55 : ℤ) (by norm_num)]
  refine ⟨rfl, hr, hp, ?_⟩
  rw [hr]
  simp only [ne_eq, Option.some.injEq]
  norm_num

/-- Claim C1 (corrected, amended): rating is present iff estimated score
is present across all three result forms (heuristic parser output, the
simple-branch result, and the degraded error result), and for the
heuristic parser output `rating = round(1 + estimated_score*9, 1)`; the
degraded error result instead hardcodes `rating = 5.0` with
`estimated_score = 0.5`, which differs from the formula's 5.5. -/
theorem C1_rating_iff_score_amended :
    (∀ text : String, ∃ q : ℚ,
        (parseInsightsToStructured text).estimated_score = some q ∧
        (parseInsightsToStructured text).rating = some (pyRound (1 + q * 9) 1)) ∧
    (∀ userText text : String, wantsDetailed userText = false →
        (analyzeFifaVoiceInput userText (.ok text)).estimated_score = none ∧
        (analyzeFifaVoiceInput userText (.ok text)).rating = none ∧
        (analyzeLolVoiceInput userText (.ok text)).estimated_score = none ∧
        (analyzeLolVoiceInput userText (.ok text)).rating = none) ∧
    (∀ game msg inputType userText : String,
        (createErrorResponse game msg inputType userText).estimated_score = some (1 / 2) ∧
        (createErrorResponse game msg inputType userText).rating = some 5) ∧
    pyRound (1 + (1 / 2 : ℚ) * 9) 1 = 11 / 2 ∧ (5 : ℚ) ≠ 11 / 2 := by
  refine ⟨?_, ?_, ?_,
    by rw [show (1 + (1 / 2 : ℚ) * 9) = 11 / 2 by norm_num,
         pyRound_exact (55 : ℤ) (by norm_num)],
    by norm_num⟩
  · intro text
    refine ⟨parserScore text, ?_, ?_⟩
    · rw [parse_estimated_score, parserScore_round_exact]
    · rw [parse_rating]
      unfold scoreToRating
      rw [parserScore_clamp]
  · intro userText text h
    refine ⟨?_, ?_, ?_, ?_⟩ <;> simp [analyzeFifaVoiceInput, analyzeLolVoiceInput, h,
      simpleVoiceResult]
  · intro game msg inputType userText
    exact ⟨rfl, rfl⟩

/-- Closed witness for the amended C1: the simple branch on a concrete
non-detailed input yields null score and rating. -/
theorem C1_witness :
    wantsDetailed "I lose the ball a lot" = false ∧
    (analyzeFifaVoiceInput "I lose the ball a lot" (.ok "A. B.")).rating = none := by
  refine ⟨by decide, ?_⟩
  exact (C1_rating_iff_score_amended.2.1 "I lose the ball a lot" "A. B." (by decide)).2.1

/-! ## Claim C4 -/

/-- Claim C4 (corrected).  The claim as frozen says the FIRST successful
score extraction wins; in the loop each later successful match overwrites
`est_score`, so the last wins.  On `"score 10\nscore 20"` both lines
match; the result is 20/100 = 1/5, not 10/100 = 1/10. -/
theorem C4_counterexample :
    (parseInsightsToStructured "score 10\nscore 20").estimated_score = some (1 / 5) ∧
    ((1 : ℚ) / 5) ≠ 1 / 10 := by
  constructor
  · rw [parse_estimated_score]
    have hs : parserScore "score 10\nscore 20" =
        max 0 (min 100 ((20 : ℕ) : ℚ)) / 100 := by
      unfold parserScore
      rw [foldl_lineStep_est]
      rfl
    rw [hs, show max 0 (min 100 ((20 : ℕ) : ℚ)) / 100 = 1 / 5 by
      norm_num [min_def, max_def]]
    rw [pyRound_exact (200 : ℤ) (by norm_num)]
  · norm_num

/-- Claim C4 (corrected, amended): in the detailed-branch heuristic
parser, among all lines containing "score" or "%" (and not claimed by the
tip/drill marker branch) from which a 1-to-3-digit number can be
extracted, the LAST such successful match in line order determines the
estimated score; the extracted value is clamped to [0,100] and divided by
100 (the per-line contribution `lineScore`), with the synthetic fallback
when no line matches. -/
theorem C4_last_match_wins (text : String) :
    (parseInsightsToStructured text).estimated_score =
      some (pyRound
        (match ((linesOf text).filterMap lineScore).getLast? with
         | some v => v
         | none => syntheticScore text) 3) := by
  rw [parse_estimated_score]
  unfold parserScore
  rw [foldl_lineStep_est]
  rcases h : ((linesOf text).filterMap lineScore).getLast? with _ | v <;> rfl

/-! ## Claim C5 -/

/-- Claim C5 (confirmed): the voice-analysis functions are total (the
Python bodies wrap the only raising call in try/except, so they never
raise to their caller — totality of these Lean functions mirrors that),
and on any unrecoverable backend error they return the fixed degraded
result: empty tips and drills, the apology explanation, estimated score
0.5, rating 5.0, and a populated error field. -/
theorem C5_degraded_error_result (userText e : String) :
    analyzeFifaVoiceInput userText (.error e) =
      createErrorResponse "fifa" ("Voice analysis failed: " ++ e) "voice" userText ∧
    analyzeLolVoiceInput userText (.error e) =
      createErrorResponse "league_of_legends" ("Voice analysis failed: " ++ e) "voice" userText ∧
    (analyzeFifaVoiceInput userText (.error e)).top_tips = [] ∧
    (analyzeFifaVoiceInput userText (.error e)).drills = [] ∧
    (analyzeFifaVoiceInput userText (.error e)).explanation =
      "I'm having trouble connecting to the analysis service right now. Please try again in a moment." ∧
    (analyzeFifaVoiceInput userText (.error e)).estimated_score = some (1 / 2) ∧
    (analyzeFifaVoiceInput userText (.error e)).rating = some 5 ∧
    (analyzeFifaVoiceInput userText (.error e)).error =
      some ("Voice analysis failed: " ++ e) ∧
    (analyzeLolVoiceInput userText (.error e)).estimated_score = some (1 / 2) ∧
    (analyzeLolVoiceInput userText (.error e)).rating = some 5 ∧
    (analyzeLolVoiceInput userText (.error e)).error =
      some ("Voice analysis failed: " ++ e) :=
  ⟨rfl, rfl, rfl, rfl, rfl, rfl, rfl, rfl, rfl, rfl, rfl⟩

/-! ## Claim C8 -/

/-- Claim C8 (confirmed): for every input text that contains no
detail-request keyword, the voice analyzer takes the simple branch: on
backend success the result has empty `top_tips`, empty `drills`, null
`estimated_score`, null `rating`, and the explanation is the first three
sentences of the raw reply (hence at most three sentences). -/
theorem C8_simple_branch (userText text : String)
    (h : wantsDetailed userText = false) :
    analyzeFifaVoiceInput userText (.ok text) =
      simpleVoiceResult "fifa" userText text ∧
    analyzeLolVoiceInput userText (.ok text) =
      simpleVoiceResult "league_of_legends" userText text ∧
    (analyzeFifaVoiceInput userText (.ok text)).top_tips = [] ∧
    (analyzeFifaVoiceInput userText (.ok text)).drills = [] ∧
    (analyzeFifaVoiceInput userText (.ok text)).estimated_score = none ∧
    (analyzeFifaVoiceInput userText (.ok text)).rating = none ∧
    (analyzeFifaVoiceInput userText (.ok text)).explanation =
      (⟨spaceJoin ((sentSplit (pyStrip text.data)).take 3)⟩ : String) ∧
    ((sentSplit (pyStrip text.data)).take 3).length ≤ 3 := by
  have hf : analyzeFifaVoiceInput userText (.ok text) =
      simpleVoiceResult "fifa" userText text := by
    simp [analyzeFifaVoiceInput, h]
  have hl : analyzeLolVoiceInput userText (.ok text) =
      simpleVoiceResult "league_of_legends" userText text := by
    simp [analyzeLolVoiceInput, h]
  have hlen : ((sentSplit (pyStrip text.data)).take 3).length ≤ 3 := by
    rw [List.length_take]
    exact min_le_left _ _
  exact ⟨hf, hl, by rw [hf]; rfl, by rw [hf]; rfl, by rw [hf]; rfl,
    by rw [hf]; rfl, by rw [hf]; rfl, hlen⟩

/-- Closed witness for C8: the spec's own scenario input takes the simple
branch and truncates a four-sentence reply to three. -/
theorem C8_witness :
    wantsDetailed "I keep dying to ganks" = false ∧
    (analyzeFifaVoiceInput "I keep dying to ganks" (.ok "A. B. C. D.")).explanation =
      "A. B. C." := by
  have h : wantsDetailed "I keep dying to ganks" = false := by decide
  refine ⟨h, ?_⟩
  rw [(C8_simple_branch "I keep dying to ganks" "A. B. C. D." h).2.2.2.2.2.2.1]
  decide

/-! ## Claim C2 -/

/-- Claim C2 (confirmed): for every `speech_end` cycle of an
authenticated session, the accumulated audio buffer is empty when the
handler returns, for every combination of backend, persistence and
synthesis outcomes.  The handler's analysis-failure early return (which
would skip the reset) is unreachable because the analyzers are total:
they catch every exception internally and return a degraded result
instead of raising. -/
theorem C2_buffer_cleared (env : Env) (s : Session) (uid : String)
    (g : Option String) (h : s.userId = some uid) :
    (handleSpeechEnd env s g).session.bufferedAudio = [] := by
  rcases s with ⟨su, sb, sg⟩
  obtain rfl : su = some uid := h
  simp [handleSpeechEnd, runAnalysis]

/-- Closed witness for C2: an authenticated session with a non-empty
buffer, an unrecognized game tag, a failing backend and a failing TTS
still ends the cycle with an empty buffer. -/
theorem C2_witness :
    (handleSpeechEnd
      ⟨fun _ => none, fun _ => "t", .error "backend down", false, .error "tts down"⟩
      ⟨some "u", [1, 2, 3], "fifa"⟩ (some "chess")).session.bufferedAudio = [] :=
  C2_buffer_cleared
    ⟨fun _ => none, fun _ => "t", .error "backend down", false, .error "tts down"⟩
    ⟨some "u", [1, 2, 3], "fifa"⟩ "u" (some "chess") rfl

/-! ## Claim C3 -/

/-- Claim C3 (corrected).  The claim as frozen says an unauthenticated
session leaves the state unchanged on any `audio_chunk`; but
`_handle_audio_chunk` performs no auth check, so the decoded bytes are
appended to the buffer even before authentication.  Concretely, a byte
sent to a fresh (unauthenticated) session changes the buffer. -/
theorem C3_counterexample :
    initialSession.userId = none ∧
    initialSession.bufferedAudio = [] ∧
    (receive envNull initialSession (.audioChunk [7])).session.bufferedAudio = [7] ∧
    (receive envNull initialSession (.audioChunk [7])).session ≠ initialSession := by
  refine ⟨rfl, rfl, rfl, ?_⟩
  intro hcontra
  have h7 : ([7] : List ℕ) = [] := congrArg Session.bufferedAudio hcontra
  exact absurd h7 (by simp)

/-- Claim C3 (corrected, amended): while a session is unauthenticated,
`speech_end` messages leave the state unchanged, trigger no pipeline and
only produce an error message; an `auth` with an invalid or missing
token causes an error message and connection termination with the state
unchanged; but `audio_chunk` messages are processed without any
authentication check — their decoded bytes are appended to the buffer
(user id and game mode unchanged, no pipeline triggered). -/
theorem C3_unauthenticated_amended (env : Env) (s : Session)
    (h : s.userId = none) :
    (∀ g, receive env s (.speechEnd g) =
      ⟨s, [.error "Not authenticated"], [], false⟩) ∧
    (∀ chunk, receive env s (.audioChunk chunk) =
      ⟨⟨s.userId, s.bufferedAudio ++ chunk, s.game⟩, [], [], false⟩) ∧
    (∀ token, env.verifyToken token = none →
      receive env s (.auth token) = ⟨s, [.error "Unauthorized"], [], true⟩) := by
  rcases s with ⟨su, sb, sg⟩
  obtain rfl : su = none := h
  refine ⟨fun g => ?_, fun chunk => ?_, fun token htok => ?_⟩
  · rfl
  · rfl
  · simp [receive, handleAuth, htok]

/-- Closed witness for the amended C3 at a fresh session with the
invalid-token environment. -/
theorem C3_witness :
    (receive envNull initialSession (.speechEnd none)).sent =
      [ServerMsg.error "Not authenticated"] ∧
    (receive envNull initialSession (.speechEnd none)).effects = [] ∧
    (receive envNull initialSession (.auth "tok")).closed = true := by
  have h := C3_unauthenticated_amended envNull initialSession rfl
  refine ⟨?_, ?_, ?_⟩
  · rw [h.1 none]
  · rw [h.1 none]
  · rw [h.2.2 "tok" rfl]

/-! ## Claim C9 -/

/-- Claim C9 (confirmed): in `_handle_speech_end`, every game tag other
than exactly "lol" — including an absent game field and any unrecognized
string — is routed to the FIFA analyzer and the FIFA save path; no lol
effect occurs and no rejection error is sent. -/
theorem C9_default_game_routing (env : Env) (s : Session) (uid : String)
    (g : Option String) (hauth : s.userId = some uid) (hg : g ≠ some "lol") :
    Effect.analyzeFifa (env.transcribe s.bufferedAudio) ∈
      (handleSpeechEnd env s g).effects ∧
    Effect.saveFifa uid (env.transcribe s.bufferedAudio) ∈
      (handleSpeechEnd env s g).effects ∧
    (∀ x, Effect.analyzeLol x ∉ (handleSpeechEnd env s g).effects) ∧
    (∀ u x, Effect.saveLol u x ∉ (handleSpeechEnd env s g).effects) ∧
    (∀ e, ServerMsg.error e ∉ (handleSpeechEnd env s g).sent) := by
  rcases s with ⟨su, sb, sg⟩
  obtain rfl : su = some uid := hauth
  have hgame : g.getD "fifa" ≠ "lol" := by
    rcases g with _ | x
    · simp
    · simpa using hg
  rcases htts : env.tts with e | audio <;>
    simp [handleSpeechEnd, runAnalysis, analysisEffect, saveEffect, hgame, htts]

/-- Closed witness for C9: an unrecognized game tag ("chess") is routed
to the FIFA analyzer. -/
theorem C9_witness :
    Effect.analyzeFifa (envNull.transcribe [1]) ∈
      (handleSpeechEnd envNull ⟨some "u", [1], "fifa"⟩ (some "chess")).effects :=
  (C9_default_game_routing envNull ⟨some "u", [1], "fifa"⟩ "u" (some "chess")
    rfl (by decide)).1

/-! ## Claim C7 -/

/-- Claim C7 (confirmed): after any sequence of saves for a single user
and game, processed one at a time starting from an empty store, at most
`DOC_LIMIT` (= 10) documents remain; moreover, from any compliant state a
save appends the new document and then deletes exactly the oldest
documents beyond the newest 10. -/
theorem C7_retention_cap :
    DOC_LIMIT = 10 ∧
    (∀ ds : List ℕ, (ds.foldl saveAnalysis []).length ≤ DOC_LIMIT) ∧
    (∀ (store : List ℕ) (d : ℕ), store.length ≤ DOC_LIMIT →
      saveAnalysis store d = (store ++ [d]).drop (store.length + 1 - DOC_LIMIT)) := by
  refine ⟨rfl, fun ds => foldl_saveAnalysis_le ds [] (by simp), ?_⟩
  intro store d h
  unfold DOC_LIMIT at h
  unfold saveAnalysis enforceDocumentLimit DOC_LIMIT
  split_ifs with hlen
  · congr 1
    simp only [List.length_take, List.length_append, List.length_cons,
      List.length_nil] at hlen ⊢
    omega
  · simp only [List.length_take, List.length_append, List.length_cons,
      List.length_nil, not_lt] at hlen
    rw [show store.length + 1 - 10 = 0 by omega, List.drop_zero]

/-- Closed witness for C7: a save onto a full store of ten documents
evicts exactly the oldest one. -/
theorem C7_witness :
    ([0, 1, 2, 3, 4, 5, 6, 7, 8, 9] : List ℕ).length ≤ DOC_LIMIT ∧
    saveAnalysis [0, 1, 2, 3, 4, 5, 6, 7, 8, 9] 10 =
      [1, 2, 3, 4, 5, 6, 7, 8, 9, 10] := by
  refine ⟨by decide, ?_⟩
  rw [C7_retention_cap.2.2 [0, 1, 2, 3, 4, 5, 6, 7, 8, 9] 10 (by decide)]
  decide

/-! ## Helper lemmas about the retry loop -/

lemma consDelay_result (d : ℚ) (r : RetryRun) : (consDelay d r).result = r.result := rfl

lemma consDelay_attempts (d : ℚ) (r : RetryRun) : (consDelay d r).attempts = r.attempts := rfl

lemma consDelay_delays (d : ℚ) (r : RetryRun) : (consDelay d r).delays = d :: r.delays := rfl

lemma retryGo_attempts_ge (outcomes : ℕ → Except String String) (m : ℕ) :
    ∀ (fuel a : ℕ) (last : Option String),
      a ≤ (retryGo outcomes m a fuel last).attempts := by
  intro fuel
  induction fuel with
  | zero => intro a last; exact le_refl a
  | succ fuel ih =>
    intro a last
    simp only [retryGo]
    rcases h : outcomes a with e | t
    · dsimp only
      by_cases hb : (isRetryable e && decide (a < m - 1)) = true
      · rw [if_pos hb, consDelay_attempts]
        exact le_trans (Nat.le_succ a) (ih (a + 1) (some e))
      · rw [if_neg hb]
        exact Nat.le_succ a
    · exact Nat.le_succ a

lemma retryGo_attempts_le (outcomes : ℕ → Except String String) (m : ℕ) :
    ∀ (fuel a : ℕ) (last : Option String),
      (retryGo outcomes m a fuel last).attempts ≤ a + fuel := by
  intro fuel
  induction fuel with
  | zero => intro a last; exact le_refl a
  | succ fuel ih =>
    intro a last
    simp only [retryGo]
    rcases h : outcomes a with e | t
    · dsimp only
      by_cases hb : (isRetryable e && decide (a < m - 1)) = true
      · rw [if_pos hb, consDelay_attempts]
        calc (retryGo outcomes m (a + 1) fuel (some e)).attempts
            ≤ (a + 1) + fuel := ih (a + 1) (some e)
          _ = a + (fuel + 1) := by omega
      · rw [if_neg hb]
        dsimp only
        omega
    · dsimp only
      omega

lemma retryGo_attempts_succ_ge (outcomes : ℕ → Except String String) (m : ℕ)
    (fuel a : ℕ) (last : Option String) (hfuel : 0 < fuel) :
    a + 1 ≤ (retryGo outcomes m a fuel last).attempts := by
  rcases fuel with _ | fuel
  · omega
  · simp only [retryGo]
    rcases h : outcomes a with e | t
    · dsimp only
      by_cases hb : (isRetryable e && decide (a < m - 1)) = true
      · rw [if_pos hb, consDelay_attempts]
        exact retryGo_attempts_ge outcomes m fuel (a + 1) (some e)
      · rw [if_neg hb]
    · exact le_refl _

lemma retryGo_retried_transient (outcomes : ℕ → Except String String) (m : ℕ) :
    ∀ (fuel a : ℕ) (last : Option String) (i : ℕ), a ≤ i →
      i + 1 < (retryGo outcomes m a fuel last).attempts →
      ∃ e, outcomes i = .error e ∧ isRetryable e = true := by
  intro fuel
  induction fuel with
  | zero =>
    intro a last i hai hi
    simp only [retryGo] at hi
    try dsimp only at hi
    exact absurd hi (by omega)
  | succ fuel ih =>
    intro a last i hai hi
    simp only [retryGo] at hi
    rcases h : outcomes a with e | t
    · rw [h] at hi
      dsimp only at hi
      by_cases hb : (isRetryable e && decide (a < m - 1)) = true
      · rw [if_pos hb, consDelay_attempts] at hi
        rcases Nat.eq_or_lt_of_le hai with rfl | hlt
        · refine ⟨e, h, ?_⟩
          have h2 := hb
          simp only [Bool.and_eq_true, decide_eq_true_eq] at h2
          exact h2.1
        · exact ih (a + 1) (some e) i hlt hi
      · rw [if_neg hb] at hi
        try dsimp only at hi
        exact absurd hi (by omega)
    · rw [h] at hi
      try dsimp only at hi
      exact absurd hi (by omega)

lemma retryGo_delays_range (outcomes : ℕ → Except String String) (m : ℕ) :
    ∀ (fuel a : ℕ) (last : Option String), fuel = m - a →
      (retryGo outcomes m a fuel last).delays =
        (List.range' a ((retryGo outcomes m a fuel last).attempts - 1 - a)).map
          (fun i => RETRY_DELAY * 2 ^ i) := by
  intro fuel
  induction fuel with
  | zero =>
    intro a last _
    simp [retryGo]
  | succ fuel ih =>
    intro a last hfa
    simp only [retryGo]
    rcases h : outcomes a with e | t
    · dsimp only
      by_cases hb : (isRetryable e && decide (a < m - 1)) = true
      · rw [if_pos hb]
        have ham : a < m - 1 := by
          have h2 := hb
          simp only [Bool.and_eq_true, decide_eq_true_eq] at h2
          exact h2.2
        have hfuel2 : fuel = m - (a + 1) := by omega
        have hfpos : 0 < fuel := by omega
        have hT : a + 2 ≤ (retryGo outcomes m (a + 1) fuel (some e)).attempts :=
          retryGo_attempts_succ_ge outcomes m fuel (a + 1) (some e) hfpos
        rw [consDelay_delays, consDelay_attempts, ih (a + 1) (some e) hfuel2]
        rw [show (retryGo outcomes m (a + 1) fuel (some e)).attempts - 1 - a =
          ((retryGo outcomes m (a + 1) fuel (some e)).attempts - 1 - (a + 1)) + 1 by omega]
        rw [List.range'_succ, List.map_cons]
      · rw [if_neg hb]
        simp
    · dsimp only
      simp

/-- If execution reaches attempt `i` and the backend raises a
non-transient error there, the wrapper stops at attempt `i + 1` and
raises the wrapped failure. -/
lemma retryGo_nonretryable_stop (outcomes : ℕ → Except String String) (m : ℕ) :
    ∀ (fuel a : ℕ) (last : Option String) (i : ℕ) (e : String), a ≤ i →
      i < (retryGo outcomes m a fuel last).attempts →
      outcomes i = .error e → isRetryable e = false →
      (retryGo outcomes m a fuel last).attempts = i + 1 ∧
      (retryGo outcomes m a fuel last).result =
        .error (geminiFailMsg m (some e)) := by
  intro fuel
  induction fuel with
  | zero =>
    intro a last i e hai hi _ _
    simp only [retryGo] at hi
    try dsimp only at hi
    exact absurd hi (by omega)
  | succ fuel ih =>
    intro a last i e hai hi he hre
    rcases Nat.eq_or_lt_of_le hai with rfl | hlt
    · simp only [retryGo, he]
      try dsimp only
      have hb : (isRetryable e && decide (a < m - 1)) = false := by
        rw [hre]; rfl
      rw [if_neg (by rw [hb]; exact Bool.false_ne_true)]
      exact ⟨rfl, rfl⟩
    · simp only [retryGo] at hi ⊢
      rcases h : outcomes a with e' | t
      · rw [h] at hi
        dsimp only at hi ⊢
        by_cases hb : (isRetryable e' && decide (a < m - 1)) = true
        · rw [if_pos hb] at hi ⊢
          rw [consDelay_attempts] at hi
          rw [consDelay_attempts, consDelay_result]
          exact ih (a + 1) (some e') i e hlt hi he hre
        · rw [if_neg hb] at hi
          try dsimp only at hi
          exact absurd hi (by omega)
      · rw [h] at hi
        try dsimp only at hi
        exact absurd hi (by omega)

/-- If every attempt up to the cap raises a transient error, the wrapper
makes exactly `m` attempts and then raises the failure wrapping the last
error. -/
lemma retryGo_exhaustion (outcomes : ℕ → Except String String) (m : ℕ) :
    ∀ (fuel a : ℕ) (last : Option String), fuel = m - a → a < m →
      (∀ j, a ≤ j → j < m → ∃ e, outcomes j = .error e ∧ isRetryable e = true) →
      (retryGo outcomes m a fuel last).attempts = m ∧
      ∃ e, outcomes (m - 1) = .error e ∧
        (retryGo outcomes m a fuel last).result =
          .error (geminiFailMsg m (some e)) := by
  intro fuel
  induction fuel with
  | zero =>
    intro a last hfa ham _
    exact absurd hfa (by omega)
  | succ fuel ih =>
    intro a last hfa ham htr
    obtain ⟨e, he, hre⟩ := htr a (le_refl a) ham
    simp only [retryGo, he]
    try dsimp only
    by_cases ham1 : a < m - 1
    · have hb : (isRetryable e && decide (a < m - 1)) = true := by
        rw [hre, decide_eq_true ham1]; rfl
      rw [if_pos hb, consDelay_attempts, consDelay_result]
      exact ih (a + 1) (some e) (by omega) (by omega)
        (fun j hj hjm => htr j (by omega) hjm)
    · have ha : a = m - 1 := by omega
      have hb : (isRetryable e && decide (a < m - 1)) = false := by
        rw [decide_eq_false ham1]; exact Bool.and_false _
      rw [if_neg (by rw [hb]; exact Bool.false_ne_true)]
      refine ⟨show a + 1 = m by omega, e, by rw [← ha]; exact he, rfl⟩

/-! ## Claim C6 -/

/-- Claim C6 (confirmed): the generation-backend call wrapper
`_call_gemini_with_retry` retries only errors whose text contains one of
the transient keywords (overloaded/503/unavailable/timeout/busy/quota),
makes at most N calls (default N = 3) with exponential backoff delay
`RETRY_DELAY * 2^attempt` before each retry; a non-transient error stops
it immediately (no further attempts) and exhaustion of the retries
raises the wrapped failure. -/
theorem C6_retry_contract :
    MAX_RETRIES = 3 ∧
    RETRY_DELAY = 2 ∧
    (∀ (outcomes : ℕ → Except String String) (m : ℕ),
      (callGeminiWithRetry outcomes m).attempts ≤ m) ∧
    (∀ (outcomes : ℕ → Except String String) (m i : ℕ),
      i + 1 < (callGeminiWithRetry outcomes m).attempts →
      ∃ e, outcomes i = .error e ∧ isRetryable e = true) ∧
    (∀ (outcomes : ℕ → Except String String) (m : ℕ),
      (callGeminiWithRetry outcomes m).delays =
        (List.range ((callGeminiWithRetry outcomes m).attempts - 1)).map
          (fun i => RETRY_DELAY * 2 ^ i)) ∧
    (∀ (outcomes : ℕ → Except String String) (m i : ℕ) (e : String),
      i < (callGeminiWithRetry outcomes m).attempts →
      outcomes i = .error e → isRetryable e = false →
      (callGeminiWithRetry outcomes m).attempts = i + 1 ∧
      (callGeminiWithRetry outcomes m).result =
        .error (geminiFailMsg m (some e))) ∧
    (∀ (outcomes : ℕ → Except String String) (m : ℕ), 0 < m →
      (∀ j, j < m → ∃ e, outcomes j = .error e ∧ isRetryable e = true) →
      (callGeminiWithRetry outcomes m).attempts = m ∧
      ∃ e, outcomes (m - 1) = .error e ∧
        (callGeminiWithRetry outcomes m).result =
          .error (geminiFailMsg m (some e))) := by
  refine ⟨rfl, rfl, ?_, ?_, ?_, ?_, ?_⟩
  · intro outcomes m
    simpa using retryGo_attempts_le outcomes m m 0 none
  · intro outcomes m i hi
    exact retryGo_retried_transient outcomes m m 0 none i (Nat.zero_le i) hi
  · intro outcomes m
    unfold callGeminiWithRetry
    rw [retryGo_delays_range outcomes m m 0 none (by omega), List.range_eq_range']
    norm_num
  · intro outcomes m i e hi he hre
    exact retryGo_nonretryable_stop outcomes m m 0 none i e (Nat.zero_le i) hi he hre
  · intro outcomes m hm htr
    exact retryGo_exhaustion outcomes m m 0 none (by omega) hm
      (fun j _ hjm => htr j hjm)

/-- Closed witness for C6: a transient 503 is retried once with the base
delay, and the following non-transient error stops the wrapper after its
second attempt with the wrapped failure. -/
theorem C6_witness :
    isRetryable "503 service unavailable" = true ∧
    isRetryable "boom" = false ∧
    (callGeminiWithRetry outcomesEx 3).attempts = 2 ∧
    (callGeminiWithRetry outcomesEx 3).result =
      .error (geminiFailMsg 3 (some "boom")) := by
  have h1 : 1 < (callGeminiWithRetry outcomesEx 3).attempts := by decide
  have h2 := (C6_retry_contract.2.2.2.2.2.1) outcomesEx 3 1 "boom" h1 rfl (by decide)
  exact ⟨by decide, by decide, h2.1, h2.2⟩

end Neuraplay
